import Mathlib

/-!
Shallow embedding of `scrape.py` from the anime-today-scraper repository.

The script is a single-file archival scraper: it fetches a reddit account's
submissions, filters them by a date-like title heuristic and an image-extension
heuristic, optionally attaches a first qualifying comment, caches the filtered
list as JSON, downloads each image into a `data/{MM}_{MonthName}/{DD}/`
directory, writes a non-empty comment alongside it, and offers a separate audit
pass over the archive tree.

Modelling conventions:
- Pure string manipulation (`lower`, `in`, `endswith`, `split`) is embedded as
  executable functions on `List Char`, mirroring Python's semantics for the
  ASCII data the script manipulates.
- The filesystem is a flat map from path strings to file contents plus a list
  of directory names; `os.path.exists` consults both, as Python does.
- JSON files are stored structurally (as a `Json` AST): `json.dump` followed by
  `json.load` is the identity on the document, so the cache file holds the
  dumped document itself, and binary downloads hold raw bytes.
- Side effects (network reads, file/directory writes, `print` diagnostics) are
  recorded in an effect trace so that claims about "how many reads", "which
  files were written" and "which notices were emitted" are statable.
- `datetime.datetime.utcfromtimestamp` (a library call, not repository code) is
  modelled for non-negative timestamps by an explicit proleptic-Gregorian
  conversion `utcYMD`; pre-epoch timestamps are platform-dependent in Python
  and out of scope for the records this scraper handles.
-/

namespace AnimeToday

/-! ### Character/string primitives mirroring the Python string operations -/

/-- Python `str.lower` restricted to ASCII, which is all the script compares. -/
def lowerChar (c : Char) : Char :=
  if 'A' ≤ c ∧ c ≤ 'Z' then Char.ofNat (c.toNat + 32) else c

/-- Python `str.lower` on a whole string. -/
def lowerStr (s : String) : String := ⟨s.data.map lowerChar⟩

/-- Python `str.startswith` on character lists. -/
def startsWithL : List Char → List Char → Bool
  | [], _ => true
  | _ :: _, [] => false
  | a :: as, b :: bs => a == b && startsWithL as bs

/-- Python `pat in s` (substring containment) on character lists. -/
def containsL (pat : List Char) : List Char → Bool
  | [] => startsWithL pat []
  | c :: rest => startsWithL pat (c :: rest) || containsL pat rest

/-- Python `str.endswith` on character lists. -/
def endsWithL (suf s : List Char) : Bool :=
  startsWithL suf.reverse s.reverse

/-- Python `str.split(sep)` for a one-character separator: always returns a
non-empty list of (possibly empty) chunks. -/
def splitChar (sep : Char) : List Char → List (List Char)
  | [] => [[]]
  | c :: rest =>
    match splitChar sep rest with
    | [] => [[c]]
    | h :: t => if c == sep then [] :: h :: t else (c :: h) :: t

/-! ### JSON documents and the domain record -/

/-- Structural model of a JSON document as produced by `json.dump` and consumed
by `json.load`. -/
inductive Json where
  | null
  | jbool (b : Bool)
  | jnum (n : Int)
  | jstr (s : String)
  | jarr (xs : List Json)
  | jobj (fields : List (String × Json))

/-- The `DailyAnimePost` dataclass of `scrape.py`. -/
structure DailyAnimePost where
  title : String
  id : String
  permalink : String
  media_url : String
  created_utc : Int
  first_comment : Option String
deriving DecidableEq

/-- Module-level constant `reddit_username` in `scrape.py`. -/
def reddit_username : String := "animetoday"

/-- Module-level constant `data_dir` in `scrape.py`. -/
def data_dir : String := "data"

/-- Module-level constant `submissions_urls_file = os.path.join(data_dir,
"submissions_urls.json")`. -/
def submissions_urls_file : String := data_dir ++ "/" ++ "submissions_urls.json"

/-! ### Filesystem state and effect traces -/

/-- Contents of one file: raw downloaded bytes, or a JSON document written by
`json.dump`. -/
inductive FData where
  | raw (s : String)
  | jsonData (j : Json)

/-- Association-list lookup returning the most recent binding for a path. -/
def lookupA : List (String × FData) → String → Option FData
  | [], _ => none
  | (k, v) :: rest, p => if k == p then some v else lookupA rest p

/-- Flat filesystem: a set of directories and a map from file paths to
contents.  The most recent write to a path shadows earlier ones. -/
structure FS where
  dirs : List String
  files : List (String × FData)

/-- File lookup (`open(p, "r")` succeeding and returning the contents). -/
def FS.lookupFile (fs : FS) (p : String) : Option FData := lookupA fs.files p

/-- Python `os.path.exists`: true for both files and directories. -/
def FS.existsPath (fs : FS) (p : String) : Bool :=
  fs.dirs.contains p || (lookupA fs.files p).isSome

/-- Writing a file (`open(p, mode) ... write`), overwriting prior contents. -/
def FS.writeFile (fs : FS) (p : String) (d : FData) : FS :=
  { fs with files := (p, d) :: fs.files }

/-- Python `os.makedirs`. -/
def FS.mkdirP (fs : FS) (p : String) : FS :=
  { fs with dirs := p :: fs.dirs }

/-- Reading a file that holds raw bytes. -/
def FS.readRaw (fs : FS) (p : String) : Option String :=
  match fs.lookupFile p with
  | some (.raw s) => some s
  | _ => none

/-- One observable side effect of a run. -/
inductive Effect where
  | upstreamFetch
  | netGet (url : String)
  | fsWrite (path : String) (data : FData)
  | mkdirE (path : String)
  | logMsg (msg : String)

/-- Recognizer for the upstream-listing request effect. -/
def Effect.isUpstreamB : Effect → Bool
  | .upstreamFetch => true
  | _ => false

/-- Recognizer for an image-download network read. -/
def Effect.isNetGetB : Effect → Bool
  | .netGet _ => true
  | _ => false

/-- Recognizer for a file write to a given path. -/
def Effect.isWriteToB (p : String) : Effect → Bool
  | .fsWrite q _ => q == p
  | _ => false

/-- Recognizer for a specific console diagnostic. -/
def Effect.isLogMsgB (m : String) : Effect → Bool
  | .logMsg s => s == m
  | _ => false

/-! ### The Image Fetcher (`download_image`) -/

/-- The extension the script actually uses:
`submission.media_url.split(".")[-1]`, i.e. the part of the whole URL after
its last dot (the whole URL when it has no dot). -/
def url_extension (url : String) : String :=
  ⟨(splitChar '.' url.data).getLastD []⟩

/-- The extension as the specification words it: the part of the URL's final
path segment after that segment's last dot. -/
def url_extension_specced (url : String) : String :=
  ⟨(splitChar '.' ((splitChar '/' url.data).getLastD [])).getLastD []⟩

/-- Destination path of `download_image`:
`os.path.join(directory, submission.id)` then `f"{image_filename}.{extension}"`. -/
def image_filename_of (s : DailyAnimePost) (directory : String) : String :=
  (directory ++ "/" ++ s.id) ++ "." ++ url_extension s.media_url

/-- `download_image`: skip when the destination exists, else perform one
network read and write the body verbatim.  `net` maps a URL to the bytes the
transport returns. -/
def download_image (net : String → String) (s : DailyAnimePost)
    (directory : String) (fs : FS) : FS × List Effect :=
  let image_filename := image_filename_of s directory
  if fs.existsPath image_filename then (fs, [])
  else
    let image_data := net s.media_url
    (fs.writeFile image_filename (.raw image_data),
     [.netGet s.media_url, .fsWrite image_filename (.raw image_data)])

/-! ### UTC civil-date conversion (`datetime.datetime.utcfromtimestamp`) -/

/-- Gregorian leap-year test. -/
def isLeap (y : Nat) : Bool := y % 4 == 0 && (y % 100 != 0 || y % 400 == 0)

/-- Number of days in a Gregorian year. -/
def daysInYear (y : Nat) : Nat := if isLeap y then 366 else 365

/-- Month lengths of a Gregorian year, January first. -/
def monthLengths (y : Nat) : List Nat :=
  [31, if isLeap y then 29 else 28, 31, 30, 31, 30, 31, 31, 30, 31, 30, 31]

/-- Walk whole years forward from `y`, consuming `d` days; fuel-driven so that
it reduces in the kernel.  Any fuel above `d` is sufficient. -/
def yearFrom (fuel : Nat) (y : Nat) (d : Nat) : Nat × Nat :=
  match fuel with
  | 0 => (y, d)
  | fuel + 1 =>
    if d < daysInYear y then (y, d) else yearFrom fuel (y + 1) (d - daysInYear y)

/-- Walk months (given their lengths), consuming the remaining day-of-year;
returns the 1-based month index and 1-based day of month. -/
def monthFrom (months : List Nat) (m : Nat) (d : Nat) : Nat × Nat :=
  match months with
  | [] => (m, d + 1)
  | len :: rest => if d < len then (m, d + 1) else monthFrom rest (m + 1) (d - len)

/-- Year, month and day of `datetime.datetime.utcfromtimestamp(t)` for a
non-negative timestamp `t`. -/
def utcYMD (t : Nat) : Nat × Nat × Nat :=
  let days := t / 86400
  let yd := yearFrom (days + 1) 1970 days
  let md := monthFrom (monthLengths yd.1) 1 yd.2
  (yd.1, md.1, md.2)

/-- English month names as produced by `strftime("%B")` (C locale), which is
also `calendar.month_name` without its empty leading entry. -/
def monthNamesU : List String :=
  ["January", "February", "March", "April", "May", "June", "July",
   "August", "September", "October", "November", "December"]

/-- Name of the 1-based month `m`. -/
def monthNameOf (m : Nat) : String := monthNamesU.getD (m - 1) ""

/-- Two-digit zero padding as in `strftime("%m")` and `strftime("%d")`. -/
def pad2 (n : Nat) : String := if n < 10 then "0" ++ toString n else toString n

/-- `submission_date.strftime("%m_%B")`. -/
def month_dir_name (t : Nat) : String :=
  pad2 (utcYMD t).2.1 ++ "_" ++ monthNameOf (utcYMD t).2.1

/-- `submission_date.strftime("%d")`. -/
def day_dir_name (t : Nat) : String := pad2 (utcYMD t).2.2

/-- The month-level archive directory for a record
(`os.path.join(data_dir, submission_month)`). -/
def month_dir_of (r : DailyAnimePost) : String :=
  data_dir ++ "/" ++ month_dir_name r.created_utc.toNat

/-- The day-level archive directory for a record
(`os.path.join(submission_month_dir, submission_day)`). -/
def day_dir_of (r : DailyAnimePost) : String :=
  month_dir_of r ++ "/" ++ day_dir_name r.created_utc.toNat

/-- Path of the comment file `os.path.join(day_dir, f"{submission.id}.txt")`. -/
def txt_path_of (r : DailyAnimePost) : String :=
  day_dir_of r ++ "/" ++ (r.id ++ ".txt")

/-! ### The Listing Filter (`get_submissions`) -/

/-- One comment of a submission, as exposed by the upstream comment accessor. -/
structure RedditComment where
  author : String
  body : String

/-- One upstream submission of the account, together with the outcome of the
comment lookup for it: either the comment list, or the exception message the
lookup raises (`submission.load()` / comment iteration failing, e.g. a 429
rate-limit error). -/
structure RedditSubmission where
  title : String
  id : String
  permalink : String
  url : String
  created_utc : Int
  comments : Except String (List RedditComment)

/-- `get_permalink`: prepend the site prefix to the relative permalink. -/
def get_permalink (s : RedditSubmission) : String :=
  "https://www.reddit.com" ++ s.permalink

/-- Lowercased month names `[name.lower() for name in month_name if name]`. -/
def month_names : List String := monthNamesU.map lowerStr

/-- Lowercased day names `[name.lower() for name in day_name]`
(`calendar.day_name` starts with Monday). -/
def day_names : List String :=
  ["monday", "tuesday", "wednesday", "thursday", "friday", "saturday", "sunday"]

/-- The title test of the Listing Filter: the lowercased title contains a month
name, a day-of-week name, or the substring "today". -/
def titleHasDateIndicator (title : String) : Bool :=
  let t := lowerStr title
  month_names.any (fun m => containsL m.data t.data)
    || day_names.any (fun d => containsL d.data t.data)
    || containsL "today".data t.data

/-- The extension test of the Listing Filter:
`submission.url.endswith(("jpg", "jpeg", "png", "gif"))`. -/
def urlIsImage (url : String) : Bool :=
  endsWithL "jpg".data url.data || endsWithL "jpeg".data url.data
    || endsWithL "png".data url.data || endsWithL "gif".data url.data

/-- First comment authored by the account whose body is brace-delimited; the
loop breaks at the first match. -/
def firstQualifyingComment : List RedditComment → Option String
  | [] => none
  | c :: rest =>
    if c.author == reddit_username
        && startsWithL "\x7b".data c.body.data
        && endsWithL "\x7d".data c.body.data
    then some c.body
    else firstQualifyingComment rest

/-- The comment a submission contributes to its record: `None` when the lookup
raised (the exception is caught) or when no comment qualifies. -/
def commentResult : Except String (List RedditComment) → Option String
  | .error _ => none
  | .ok cs => firstQualifyingComment cs

/-- The record the Listing Filter constructs for an included submission. -/
def mkPost (s : RedditSubmission) : DailyAnimePost :=
  { title := s.title
    id := s.id
    permalink := get_permalink s
    media_url := s.url
    created_utc := s.created_utc
    first_comment := commentResult s.comments }

/-- Per-submission step of the Listing Filter: the optional record, plus the
diagnostics it prints.  Mirrors the loop body of `get_submissions`. -/
def processSubmission (s : RedditSubmission) : Option DailyAnimePost × List Effect :=
  if ¬ titleHasDateIndicator s.title then
    (none, [.logMsg ("Skipping \x27" ++ s.title
      ++ "\x27 because it doesn\x27t contain a known date indicator in the title - "
      ++ get_permalink s)])
  else if ¬ urlIsImage s.url then
    (none, [.logMsg ("Skipping " ++ s.title ++ " because it\x27s not an image")])
  else
    match s.comments with
    | .error e =>
      (some (mkPost s),
       [.logMsg "Checking for comment...", .logMsg ("Error getting comment: " ++ e)])
    | .ok cs =>
      match firstQualifyingComment cs with
      | some body =>
        (some (mkPost s),
         [.logMsg "Checking for comment...", .logMsg ("Found comment: " ++ body)])
      | none => (some (mkPost s), [.logMsg "Checking for comment..."])

/-- Fold of `processSubmission` over the listing, keeping upstream order. -/
def get_submissionsAux : List RedditSubmission → List DailyAnimePost × List Effect
  | [] => ([], [])
  | s :: rest =>
    let step := processSubmission s
    let done := get_submissionsAux rest
    (match step.1 with
     | some r => r :: done.1
     | none => done.1,
     step.2 ++ done.2)

/-- `get_submissions`: one unbounded listing request, then the filter pass. -/
def get_submissions (subs : List RedditSubmission) :
    List DailyAnimePost × List Effect :=
  let done := get_submissionsAux subs
  (done.1, Effect.upstreamFetch :: done.2)

/-! ### The Submission Cache (`save_submissions_urls` / `load_submissions_urls`) -/

/-- Serialization of one record, in `__dict__` field order; an absent comment
serializes as `null`. -/
def postToJson (p : DailyAnimePost) : Json :=
  .jobj [("title", .jstr p.title), ("id", .jstr p.id),
         ("permalink", .jstr p.permalink), ("media_url", .jstr p.media_url),
         ("created_utc", .jnum p.created_utc),
         ("first_comment", match p.first_comment with
                           | none => .null
                           | some c => .jstr c)]

/-- Serialization of the whole record list (`json.dump(submissions, ...)`). -/
def encodeSubmissions (l : List DailyAnimePost) : Json := .jarr (l.map postToJson)

/-- Lookup of an object key (`s["key"]` on the parsed dictionary). -/
def jsonLookup : List (String × Json) → String → Option Json
  | [], _ => none
  | (k, v) :: rest, key => if k == key then some v else jsonLookup rest key

/-- The keyword parameters `DailyAnimePost(**s)` accepts. -/
def postKeys : List String :=
  ["title", "id", "permalink", "media_url", "created_utc", "first_comment"]

/-- Deserialization of one record, modelling `DailyAnimePost(**s)`: every key
of the object must be a declared field, all six fields must be present, and
each value must have the field's annotated shape (`null` becomes `None`). -/
def postFromJson : Json → Option DailyAnimePost
  | .jobj fields =>
    if fields.all (fun kv => postKeys.contains kv.1) then
      match jsonLookup fields "title", jsonLookup fields "id",
            jsonLookup fields "permalink", jsonLookup fields "media_url",
            jsonLookup fields "created_utc", jsonLookup fields "first_comment" with
      | some (.jstr t), some (.jstr i), some (.jstr pl), some (.jstr mu),
        some (.jnum cu), some fc =>
        match fc with
        | .null => some ⟨t, i, pl, mu, cu, none⟩
        | .jstr c => some ⟨t, i, pl, mu, cu, some c⟩
        | _ => none
      | _, _, _, _, _, _ => none
    else none
  | _ => none

/-- Deserialization of the elements of the parsed list, in order; the first
failure aborts the comprehension. -/
def postListFromJsonAux : List Json → Option (List DailyAnimePost)
  | [] => some []
  | j :: rest =>
    match postFromJson j, postListFromJsonAux rest with
    | some p, some ps => some (p :: ps)
    | _, _ => none

/-- Deserialization of the record list
(`[DailyAnimePost(**s) for s in submissions]`). -/
def postListFromJson : Json → Option (List DailyAnimePost)
  | .jarr xs => postListFromJsonAux xs
  | _ => none

/-- `save_submissions_urls`: dump the full list to the single cache file,
overwriting any prior content. -/
def save_submissions_urls (submissions : List DailyAnimePost) (fs : FS) :
    FS × List Effect :=
  let doc := encodeSubmissions submissions
  (fs.writeFile submissions_urls_file (.jsonData doc),
   [.fsWrite submissions_urls_file (.jsonData doc)])

/-- `load_submissions_urls`: read the cache file back; `none` models the raised
exception when the file is missing or does not parse into records. -/
def load_submissions_urls (fs : FS) : Option (List DailyAnimePost) :=
  match fs.lookupFile submissions_urls_file with
  | some (.jsonData j) => postListFromJson j
  | _ => none

/-! ### The top-level run (`main`) -/

/-- The `if not os.path.exists(p): os.makedirs(p)` idiom of `main`. -/
def ensure_dir (fs : FS) (p : String) : FS × List Effect :=
  if fs.existsPath p then (fs, []) else (fs.mkdirP p, [.mkdirE p])

/-- Body of the per-record loop of `main`: resolve the archive path, create the
directories, download the image, and persist a truthy (non-empty) comment. -/
def processPost (net : String → String) (fs : FS) (submission : DailyAnimePost) :
    FS × List Effect :=
  let step1 := ensure_dir fs (month_dir_of submission)
  let day_dir := day_dir_of submission
  let step2 := ensure_dir step1.1 day_dir
  let step3 := download_image net submission day_dir step2.1
  let procLog := Effect.logMsg
    ("Processing " ++ submission.title ++ " - " ++ submission.permalink)
  match submission.first_comment with
  | some c =>
    if c == "" then (step3.1, procLog :: (step1.2 ++ step2.2 ++ step3.2))
    else
      (step3.1.writeFile (txt_path_of submission) (.raw c),
       procLog :: (step1.2 ++ step2.2 ++ step3.2
         ++ [.fsWrite (txt_path_of submission) (.raw c)]))
  | none => (step3.1, procLog :: (step1.2 ++ step2.2 ++ step3.2))

/-- The per-record loop of `main` over the whole record list. -/
def processPosts (net : String → String) : FS → List DailyAnimePost → FS × List Effect
  | fs, [] => (fs, [])
  | fs, p :: rest =>
    let step := processPost net fs p
    let done := processPosts net step.1 rest
    (done.1, step.2 ++ done.2)

/-- `main`: ensure the data directory, then load the cache if the cache file
exists and otherwise run the Listing Filter, then run the per-record loop.
`none` models the run aborting on a cache-file read/parse exception.  Note
that no branch of `main` calls `save_submissions_urls`. -/
def main (net : String → String) (subs : List RedditSubmission) (fs : FS) :
    Option (FS × List Effect) :=
  let step0 := ensure_dir fs data_dir
  if step0.1.existsPath submissions_urls_file then
    match load_submissions_urls step0.1 with
    | none => none
    | some daily =>
      let done := processPosts net step0.1 daily
      some (done.1, step0.2 ++ done.2)
  else
    let fetched := get_submissions subs
    let done := processPosts net step0.1 fetched.1
    some (done.1, step0.2 ++ fetched.2 ++ done.2)

/-! ### The Audit Sweep (`perform_audit`) -/

/-- A directory entry as the audit walk sees it. -/
inductive FTree where
  | file (name : String)
  | dir (name : String) (children : List FTree)

/-- Whether an entry is a directory (`os.path.isdir`). -/
def FTree.isDirB : FTree → Bool
  | .file _ => false
  | .dir _ _ => true

/-- Auditing one entry of a month directory: `os.listdir` on a regular file
raises (modelled as `.error` carrying the offending path), and an empty day
directory is reported. -/
def auditDay (month_dir : String) : FTree → Except String (List String)
  | .file n => .error (month_dir ++ "/" ++ n)
  | .dir n children =>
    .ok (if children.isEmpty then [month_dir ++ "/" ++ n] else [])

/-- The inner loop of `perform_audit` over a month directory's entries; the
first raised exception aborts the walk. -/
def auditDays (month_dir : String) : List FTree → Except String (List String)
  | [] => .ok []
  | e :: rest =>
    match auditDay month_dir e with
    | .error msg => .error msg
    | .ok r =>
      match auditDays month_dir rest with
      | .error msg => .error msg
      | .ok rs => .ok (r ++ rs)

/-- Auditing one entry of the data directory: non-directories are skipped by
the explicit `os.path.isdir` check. -/
def auditMonth : FTree → Except String (List String)
  | .file _ => .ok []
  | .dir n children => auditDays (data_dir ++ "/" ++ n) children

/-- The outer loop of `perform_audit` over the data directory's entries. -/
def auditMonths : List FTree → Except String (List String)
  | [] => .ok []
  | e :: rest =>
    match auditMonth e with
    | .error msg => .error msg
    | .ok r =>
      match auditMonths rest with
      | .error msg => .error msg
      | .ok rs => .ok (r ++ rs)

/-- `perform_audit`, applied to the entries of `data_dir`; the returned list
holds the day directories reported as empty, and `.error` models the
uncaught `NotADirectoryError`. -/
def perform_audit (entries : List FTree) : Except String (List String) :=
  auditMonths entries

/-- Specification-side description of one month directory's report: its
day-level directory entries whose listing is empty. -/
def dayEmpties (month_dir : String) (ch : List FTree) : List String :=
  ch.foldr
    (fun d acc =>
      match d with
      | .dir dn [] => (month_dir ++ "/" ++ dn) :: acc
      | _ => acc) []

/-- Specification-side description of what the audit should report: every
day-level directory entry whose listing is empty. -/
def emptyDayDirs (entries : List FTree) : List String :=
  entries.foldr
    (fun e acc =>
      match e with
      | .file _ => acc
      | .dir n ch => dayEmpties (data_dir ++ "/" ++ n) ch ++ acc) []

/-- Precondition of the audit's totality: no regular file sits directly inside
a month directory. -/
def monthChildrenAreDirs (entries : List FTree) : Bool :=
  entries.all (fun e =>
    match e with
    | .file _ => true
    | .dir _ ch => ch.all FTree.isDirB)

end AnimeToday

namespace AnimeToday

/-! ### Helper lemmas: civil-date bounds -/

theorem daysInYear_ge (y : Nat) : 365 ≤ daysInYear y := by
  unfold daysInYear; split <;> omega

theorem yearFrom_doy_lt : ∀ (fuel y d : Nat), d < fuel →
    (yearFrom fuel y d).2 < daysInYear (yearFrom fuel y d).1 := by
  intro fuel
  induction fuel with
  | zero => intro y d h; omega
  | succ f ih =>
    intro y d h
    unfold yearFrom
    by_cases hd : d < daysInYear y
    · simp [hd]
    · simp [hd]
      apply ih
      have := daysInYear_ge y
      omega

theorem monthFrom_bounds : ∀ (months : List Nat) (m d : Nat),
    (∀ x ∈ months, x ≤ 31) → d < months.sum →
    1 ≤ (monthFrom months m d).2 ∧ (monthFrom months m d).2 ≤ 31 ∧
    m ≤ (monthFrom months m d).1 ∧ (monthFrom months m d).1 < m + months.length := by
  intro months
  induction months with
  | nil => intro m d _ h; simp at h
  | cons len rest ih =>
    intro m d hb h
    unfold monthFrom
    by_cases hd : d < len
    · have hlen : len ≤ 31 := hb len (by simp)
      simp [hd]
      omega
    · simp [hd]
      have hb2 : ∀ x ∈ rest, x ≤ 31 := fun x hx => hb x (by simp [hx])
      have hsum : d - len < rest.sum := by
        simp [List.sum_cons] at h; omega
      have := ih (m + 1) (d - len) hb2 hsum
      simp at this ⊢
      omega

theorem monthLengths_sum (y : Nat) : (monthLengths y).sum = daysInYear y := by
  unfold monthLengths daysInYear
  cases h : isLeap y <;> simp

theorem monthLengths_le (y : Nat) : ∀ x ∈ monthLengths y, x ≤ 31 := by
  unfold monthLengths
  cases h : isLeap y <;> decide

theorem monthLengths_len (y : Nat) : (monthLengths y).length = 12 := by
  unfold monthLengths; cases h : isLeap y <;> rfl

/-- Every timestamp resolves to a month in 1..12 and a day in 1..31. -/
theorem utcYMD_bounds (t : Nat) :
    1 ≤ (utcYMD t).2.1 ∧ (utcYMD t).2.1 ≤ 12 ∧
    1 ≤ (utcYMD t).2.2 ∧ (utcYMD t).2.2 ≤ 31 := by
  unfold utcYMD
  have h1 := yearFrom_doy_lt (t / 86400 + 1) 1970 (t / 86400) (by omega)
  have h2 := monthFrom_bounds (monthLengths (yearFrom (t / 86400 + 1) 1970 (t / 86400)).1) 1
    (yearFrom (t / 86400 + 1) 1970 (t / 86400)).2
    (monthLengths_le _)
    (by rw [monthLengths_sum]; exact h1)
  rw [monthLengths_len] at h2
  simp only []
  omega

/-! ### Helper lemmas: injectivity of the archive path format -/

theorem pad2_len2 : ∀ n < 32, (pad2 n).data.length = 2 := by decide

theorem pad2_inj32 : ∀ m < 32, ∀ n < 32, pad2 m = pad2 n → m = n := by decide

/-- The `{MM}_{MonthName}/{DD}` path under `data/` determines month and day,
for month and day values in the ranges the resolver produces. -/
theorem dirStr_inj (m1 d1 m2 d2 : Nat)
    (hm1 : m1 < 32) (hd1 : d1 < 32) (hm2 : m2 < 32) (hd2 : d2 < 32)
    (h : ("data" ++ "/" ++ (pad2 m1 ++ "_" ++ monthNameOf m1)) ++ "/" ++ pad2 d1
       = ("data" ++ "/" ++ (pad2 m2 ++ "_" ++ monthNameOf m2)) ++ "/" ++ pad2 d2) :
    m1 = m2 ∧ d1 = d2 := by
  have hd := congrArg String.data h
  simp only [String.data_append, List.append_assoc] at hd
  have hstep := List.append_cancel_left (List.append_cancel_left hd)
  have hlen : (pad2 m1).data.length = (pad2 m2).data.length := by
    rw [pad2_len2 m1 hm1, pad2_len2 m2 hm2]
  obtain ⟨hpm, hrest⟩ := List.append_inj hstep hlen
  have hm : m1 = m2 := pad2_inj32 m1 hm1 m2 hm2 (String.ext hpm)
  subst hm
  have hrest4 :=
    List.append_cancel_left (List.append_cancel_left (List.append_cancel_left hrest))
  exact ⟨rfl, pad2_inj32 d1 hd1 d2 hd2 (String.ext hrest4)⟩

/-! ### Claim C2 -/

/-- C2 is refuted as stated: the archive directory is derived from
`strftime("%m_%B")` and `strftime("%d")` alone, so the year is discarded.
1700000000 falls on 2023-11-14 UTC and 1668464000 on 2022-11-14 UTC —
different calendar days — yet both records resolve to the same
`data/11_November/14` directory. -/
theorem c2_counterexample :
    utcYMD ((1700000000 : Int)).toNat = (2023, 11, 14) ∧
    utcYMD ((1668464000 : Int)).toNat = (2022, 11, 14) ∧
    day_dir_of ⟨"a", "i1", "pl", "u", 1700000000, none⟩ =
      day_dir_of ⟨"b", "i2", "pl", "u", 1668464000, none⟩ := by
  refine ⟨by decide, by decide, by decide⟩

/-- C2 (amended): two records resolve to the identical archive directory
`{month:02d}_{MonthName}/{day:02d}` exactly when their `created_utc`
timestamps share the UTC month and day-of-month; the year plays no role, so
same calendar day still implies the same directory, but the same month/day
pair of different years collides as well, and records differing in month or
day-of-month never share a directory. -/
theorem c2_archive_path_determinism (r1 r2 : DailyAnimePost)
    (h1 : 0 ≤ r1.created_utc) (h2 : 0 ≤ r2.created_utc) :
    day_dir_of r1 = day_dir_of r2 ↔
      ((utcYMD r1.created_utc.toNat).2.1 = (utcYMD r2.created_utc.toNat).2.1 ∧
       (utcYMD r1.created_utc.toNat).2.2 = (utcYMD r2.created_utc.toNat).2.2) := by
  constructor
  · intro h
    have hb1 := utcYMD_bounds r1.created_utc.toNat
    have hb2 := utcYMD_bounds r2.created_utc.toNat
    unfold day_dir_of month_dir_of month_dir_name day_dir_name data_dir at h
    exact dirStr_inj _ _ _ _ (by omega) (by omega) (by omega) (by omega) h
  · intro hmd
    unfold day_dir_of month_dir_of month_dir_name day_dir_name
    rw [hmd.1, hmd.2]

/-- Witness for `c2_archive_path_determinism` at concrete records: 0 and
31536000 both fall on January 1st (1970 and 1971), and the theorem yields the
shared directory. -/
theorem c2_archive_path_determinism_witness :
    day_dir_of ⟨"a", "i", "p", "u", 0, none⟩ =
      day_dir_of ⟨"b", "j", "q", "v", 31536000, none⟩ :=
  (c2_archive_path_determinism ⟨"a", "i", "p", "u", 0, none⟩
    ⟨"b", "j", "q", "v", 31536000, none⟩ (by decide) (by decide)).mpr (by decide)

end AnimeToday

namespace AnimeToday

/-! ### Helper lemmas: the per-submission step of the Listing Filter -/

theorem processSubmission_included (s : RedditSubmission)
    (h1 : titleHasDateIndicator s.title = true) (h2 : urlIsImage s.url = true) :
    (processSubmission s).1 = some (mkPost s) := by
  unfold processSubmission
  rcases hc : s.comments with e | cs
  · simp [h1, h2, hc]
  · cases hq : firstQualifyingComment cs <;> simp [h1, h2, hc, hq]

theorem processSubmission_skip_title (s : RedditSubmission)
    (h1 : titleHasDateIndicator s.title = false) :
    processSubmission s =
      (none, [.logMsg ("Skipping \x27" ++ s.title
        ++ "\x27 because it doesn\x27t contain a known date indicator in the title - "
        ++ get_permalink s)]) := by
  unfold processSubmission
  simp [h1]

theorem processSubmission_skip_ext (s : RedditSubmission)
    (h1 : titleHasDateIndicator s.title = true) (h2 : urlIsImage s.url = false) :
    processSubmission s =
      (none, [.logMsg ("Skipping " ++ s.title ++ " because it\x27s not an image")]) := by
  unfold processSubmission
  simp [h1, h2]

theorem get_submissions_fst_cons (s : RedditSubmission) (rest : List RedditSubmission) :
    (get_submissions (s :: rest)).1 =
      (match (processSubmission s).1 with
       | some r => r :: (get_submissions rest).1
       | none => (get_submissions rest).1) := by
  rcases h : (processSubmission s).1 with _ | r <;>
    simp only [get_submissions, get_submissionsAux, h]

theorem get_submissions_snd_cons (s : RedditSubmission) (rest : List RedditSubmission) :
    (get_submissions (s :: rest)).2 =
      Effect.upstreamFetch :: ((processSubmission s).2 ++ (get_submissionsAux rest).2) := by
  rfl

/-! ### Claim C3 -/

/-- C3 is refuted as stated: a title containing "today" does not by itself
make the Listing Filter include the post — the media URL must also end in an
image extension.  The post titled "Anime Today" with URL
`http://x/clip.webm` matches the title test yet is excluded. -/
theorem c3_counterexample :
    titleHasDateIndicator "Anime Today" = true ∧
    (get_submissions
      [⟨"Anime Today", "id1", "/r/x", "http://x/clip.webm", 0, .ok []⟩]).1 = [] := by
  exact ⟨by decide, by decide⟩

/-- C3 (amended): a post is included exactly when its lowercased title
contains a full month name, a day-of-week name, or the substring "today" AND
its URL ends in jpg/jpeg/png/gif; a post whose title contains none of the
indicators is excluded with the date-indicator skip notice, and a
title-matching post with a non-image URL is excluded with the
not-an-image skip notice. -/
theorem c3_listing_filter (s : RedditSubmission) (rest : List RedditSubmission) :
    (titleHasDateIndicator s.title = true → urlIsImage s.url = true →
      (get_submissions (s :: rest)).1 = mkPost s :: (get_submissions rest).1) ∧
    (titleHasDateIndicator s.title = false →
      (get_submissions (s :: rest)).1 = (get_submissions rest).1 ∧
      (get_submissions (s :: rest)).2.any (Effect.isLogMsgB
        ("Skipping \x27" ++ s.title
          ++ "\x27 because it doesn\x27t contain a known date indicator in the title - "
          ++ get_permalink s)) = true) ∧
    (titleHasDateIndicator s.title = true → urlIsImage s.url = false →
      (get_submissions (s :: rest)).1 = (get_submissions rest).1 ∧
      (get_submissions (s :: rest)).2.any (Effect.isLogMsgB
        ("Skipping " ++ s.title ++ " because it\x27s not an image")) = true) := by
  refine ⟨?_, ?_, ?_⟩
  · intro h1 h2
    rw [get_submissions_fst_cons, processSubmission_included s h1 h2]
  · intro h1
    constructor
    · rw [get_submissions_fst_cons, processSubmission_skip_title s h1]
    · rw [get_submissions_snd_cons, processSubmission_skip_title s h1]
      simp [Effect.isLogMsgB]
  · intro h1 h2
    constructor
    · rw [get_submissions_fst_cons, processSubmission_skip_ext s h1 h2]
    · rw [get_submissions_snd_cons, processSubmission_skip_ext s h1 h2]
      simp [Effect.isLogMsgB]

/-- Witness for `c3_listing_filter`: a qualifying post is included and a
date-less title is skipped. -/
theorem c3_listing_filter_witness :
    (get_submissions
      [⟨"It is Wednesday today", "ab1", "/r/a/1", "https://i.redd.it/p.jpg", 1700000000,
        .ok []⟩]).1 =
      [mkPost ⟨"It is Wednesday today", "ab1", "/r/a/1", "https://i.redd.it/p.jpg",
        1700000000, .ok []⟩] ∧
    (get_submissions [⟨"random", "ab2", "/r/a/2", "https://i.redd.it/q.jpg", 0,
        .ok []⟩]).1 = [] := by
  constructor
  · exact (c3_listing_filter _ []).1 (by decide) (by decide)
  · exact ((c3_listing_filter
      ⟨"random", "ab2", "/r/a/2", "https://i.redd.it/q.jpg", 0, .ok []⟩ []).2.1
      (by decide)).1

/-! ### Claim C8 -/

/-- C8 (confirmed): when both inclusion tests pass and the comment lookup
raises, the exception is caught and logged, the record is still constructed
and appended with `first_comment` absent, and the remaining listing is
processed normally — `get_submissions` is a total function, so the failure
never propagates out of it. -/
theorem c8_comment_failure_degrades (s : RedditSubmission)
    (rest : List RedditSubmission) (e : String)
    (h1 : titleHasDateIndicator s.title = true) (h2 : urlIsImage s.url = true)
    (hc : s.comments = .error e) :
    (get_submissions (s :: rest)).1 =
      { title := s.title, id := s.id, permalink := get_permalink s,
        media_url := s.url, created_utc := s.created_utc, first_comment := none }
        :: (get_submissions rest).1 ∧
    (get_submissions (s :: rest)).2.any
      (Effect.isLogMsgB ("Error getting comment: " ++ e)) = true := by
  constructor
  · rw [get_submissions_fst_cons, processSubmission_included s h1 h2]
    unfold mkPost commentResult
    rw [hc]
  · rw [get_submissions_snd_cons]
    unfold processSubmission
    simp [h1, h2, hc, Effect.isLogMsgB]

/-- Witness for `c8_comment_failure_degrades`: a rate-limited comment lookup
still yields the record, with no comment attached. -/
theorem c8_comment_failure_degrades_witness :
    (get_submissions
      [⟨"today", "ab3", "/r/a/3", "https://i.redd.it/r.png", 5,
        .error "received 429 HTTP response"⟩]).1 =
      [{ title := "today", id := "ab3", permalink := get_permalink
          ⟨"today", "ab3", "/r/a/3", "https://i.redd.it/r.png", 5,
            .error "received 429 HTTP response"⟩,
         media_url := "https://i.redd.it/r.png", created_utc := 5,
         first_comment := none }] ∧
    (get_submissions
      [⟨"today", "ab3", "/r/a/3", "https://i.redd.it/r.png", 5,
        .error "received 429 HTTP response"⟩]).2.any
      (Effect.isLogMsgB "Error getting comment: received 429 HTTP response") = true := by
  have h := c8_comment_failure_degrades
    ⟨"today", "ab3", "/r/a/3", "https://i.redd.it/r.png", 5,
      .error "received 429 HTTP response"⟩ [] "received 429 HTTP response"
    (by decide) (by decide) rfl
  exact h

end AnimeToday

namespace AnimeToday

/-! ### Claim C6 -/

theorem postFromJson_postToJson (p : DailyAnimePost) :
    postFromJson (postToJson p) = some p := by
  obtain ⟨t, i, pl, mu, cu, fc⟩ := p
  cases fc <;> rfl

theorem postListFromJsonAux_encode (l : List DailyAnimePost) :
    postListFromJsonAux (l.map postToJson) = some l := by
  induction l with
  | nil => rfl
  | cons p rest ih =>
    rw [List.map_cons]
    unfold postListFromJsonAux
    rw [postFromJson_postToJson, ih]

/-- C6 (confirmed): saving any record list and loading it back reconstructs a
field-for-field identical list; a `null` serialized `first_comment` comes back
as `none`.  (The `null` case is exercised because `postToJson` serializes an
absent comment as `null` and the round trip restores it, see
`postFromJson_postToJson` at a record with `first_comment := none`.) -/
theorem c6_cache_round_trip (l : List DailyAnimePost) (fs : FS) :
    load_submissions_urls ((save_submissions_urls l fs).1) = some l := by
  unfold load_submissions_urls save_submissions_urls
  simp only [FS.writeFile, FS.lookupFile, lookupA, beq_self_eq_true, if_true]
  unfold encodeSubmissions postListFromJson
  exact postListFromJsonAux_encode l

/-! ### Claim C7 -/

/-- C7 (confirmed): starting from a state in which the destination file is
absent, two successive invocations of the Image Fetcher with the same record
and directory perform exactly one network read; the second invocation finds
the destination file present, performs no effect at all, and leaves the
filesystem unchanged. -/
theorem c7_download_idempotent (net : String → String) (s : DailyAnimePost)
    (dir : String) (fs : FS)
    (h : fs.existsPath (image_filename_of s dir) = false) :
    ((download_image net s dir fs).2
      ++ (download_image net s dir (download_image net s dir fs).1).2).countP
        Effect.isNetGetB = 1 ∧
    download_image net s dir (download_image net s dir fs).1 =
      ((download_image net s dir fs).1, []) := by
  have h1 : download_image net s dir fs =
      (fs.writeFile (image_filename_of s dir) (.raw (net s.media_url)),
       [.netGet s.media_url,
        .fsWrite (image_filename_of s dir) (.raw (net s.media_url))]) := by
    unfold download_image
    simp [h]
  have hex : (fs.writeFile (image_filename_of s dir)
      (.raw (net s.media_url))).existsPath (image_filename_of s dir) = true := by
    simp [FS.writeFile, FS.existsPath, lookupA]
  have h2 : download_image net s dir (download_image net s dir fs).1 =
      ((download_image net s dir fs).1, []) := by
    rw [h1]
    unfold download_image
    simp [hex]
  refine ⟨?_, h2⟩
  rw [h2, h1]
  simp [List.countP, List.countP.go, Effect.isNetGetB]

/-- Witness for `c7_download_idempotent` on an empty filesystem. -/
theorem c7_download_idempotent_witness :
    ((download_image (fun _ => "B") ⟨"t", "x", "p", "http://a.b/c.jpg", 0, none⟩
        "d" ⟨[], []⟩).2
      ++ (download_image (fun _ => "B") ⟨"t", "x", "p", "http://a.b/c.jpg", 0, none⟩
        "d" (download_image (fun _ => "B")
          ⟨"t", "x", "p", "http://a.b/c.jpg", 0, none⟩ "d" ⟨[], []⟩).1).2).countP
        Effect.isNetGetB = 1 ∧
    download_image (fun _ => "B") ⟨"t", "x", "p", "http://a.b/c.jpg", 0, none⟩
        "d" (download_image (fun _ => "B")
          ⟨"t", "x", "p", "http://a.b/c.jpg", 0, none⟩ "d" ⟨[], []⟩).1 =
      ((download_image (fun _ => "B") ⟨"t", "x", "p", "http://a.b/c.jpg", 0, none⟩
        "d" ⟨[], []⟩).1, []) :=
  c7_download_idempotent (fun _ => "B") ⟨"t", "x", "p", "http://a.b/c.jpg", 0, none⟩
    "d" ⟨[], []⟩ (by decide)

/-! ### Claim C5 -/

/-- C5 is refuted as stated: the script computes the extension as
`media_url.split(".")[-1]` over the whole URL, not over the URL's final path
segment.  For `http://ex.com/picjpg` (which passes the image filter because it
ends in `jpg`) the final path segment `picjpg` contains no dot, so the code's
extension is `com/picjpg` and the file is written to `d/x.com/picjpg`, not to
`{directory}/{id}.{segment-extension}`. -/
theorem c5_counterexample :
    url_extension "http://ex.com/picjpg" = "com/picjpg" ∧
    url_extension_specced "http://ex.com/picjpg" = "picjpg" ∧
    urlIsImage "http://ex.com/picjpg" = true ∧
    ((download_image (fun _ => "IMG")
      ⟨"today", "x", "p", "http://ex.com/picjpg", 0, none⟩ "d" ⟨[], []⟩).1.readRaw
        ("d/x" ++ "." ++ "com/picjpg") = some "IMG") ∧
    ("d/x" ++ "." ++ "com/picjpg") ≠ ("d/x" ++ "." ++ "picjpg") := by
  refine ⟨by decide, by decide, by decide, by decide, by decide⟩

/-- C5 (amended): the Image Fetcher writes the media content verbatim (no
content-type sniffing or validation) to `{directory}/{id}.{extension}`, where
the extension is the part of the entire media URL after its last dot — which
coincides with the final path segment's suffix after a dot whenever that
segment contains one, and otherwise reaches back past slashes. -/
theorem c5_image_fetcher_path (net : String → String) (s : DailyAnimePost)
    (dir : String) (fs : FS)
    (h : fs.existsPath (image_filename_of s dir) = false) :
    download_image net s dir fs =
      (fs.writeFile ((dir ++ "/" ++ s.id) ++ "." ++ url_extension s.media_url)
        (.raw (net s.media_url)),
       [.netGet s.media_url,
        .fsWrite ((dir ++ "/" ++ s.id) ++ "." ++ url_extension s.media_url)
          (.raw (net s.media_url))]) := by
  unfold download_image
  rw [if_neg (by simp [h])]
  rfl

/-- Witness for `c5_image_fetcher_path` at a concrete record and directory. -/
theorem c5_image_fetcher_path_witness :
    download_image (fun _ => "IMG") ⟨"t", "y", "p", "http://a.b/c.jpg", 0, none⟩
        "d" ⟨[], []⟩ =
      (FS.writeFile ⟨[], []⟩ (("d" ++ "/" ++ "y") ++ "." ++ url_extension "http://a.b/c.jpg")
        (.raw "IMG"),
       [.netGet "http://a.b/c.jpg",
        .fsWrite (("d" ++ "/" ++ "y") ++ "." ++ url_extension "http://a.b/c.jpg")
          (.raw "IMG")]) :=
  c5_image_fetcher_path (fun _ => "IMG") ⟨"t", "y", "p", "http://a.b/c.jpg", 0, none⟩
    "d" ⟨[], []⟩ (by decide)

end AnimeToday

namespace AnimeToday

/-! ### Helper lemmas: effects of the per-record loop -/

theorem ensure_dir_files (fs : FS) (p : String) :
    ((ensure_dir fs p).1).files = fs.files := by
  unfold ensure_dir; split <;> rfl

theorem ensure_dir_existsPath_mono (fs : FS) (p q : String)
    (h : fs.existsPath q = true) : ((ensure_dir fs p).1).existsPath q = true := by
  unfold ensure_dir
  split
  · exact h
  · simp [FS.existsPath, FS.mkdirP] at h ⊢
    tauto

theorem load_submissions_urls_ensure (fs : FS) (p : String) :
    load_submissions_urls (ensure_dir fs p).1 = load_submissions_urls fs := by
  unfold load_submissions_urls FS.lookupFile
  rw [ensure_dir_files]

theorem ensure_dir_no_upstream (fs : FS) (p : String) :
    ((ensure_dir fs p).2).all (fun e => !e.isUpstreamB) = true := by
  unfold ensure_dir; split <;> rfl

theorem download_image_no_upstream (net : String → String) (s : DailyAnimePost)
    (dir : String) (fs : FS) :
    ((download_image net s dir fs).2).all (fun e => !e.isUpstreamB) = true := by
  by_cases h : fs.existsPath (image_filename_of s dir) = true <;>
    simp [download_image, h, Effect.isUpstreamB]

theorem allNU_append {l1 l2 : List Effect}
    (h1 : l1.all (fun e => !e.isUpstreamB) = true)
    (h2 : l2.all (fun e => !e.isUpstreamB) = true) :
    (l1 ++ l2).all (fun e => !e.isUpstreamB) = true := by
  rw [List.all_append, h1, h2]
  rfl

theorem allNU_cons (e : Effect) (l : List Effect)
    (h1 : e.isUpstreamB = false)
    (h2 : l.all (fun e => !e.isUpstreamB) = true) :
    (e :: l).all (fun e => !e.isUpstreamB) = true := by
  rw [List.all_cons, h1, h2]
  rfl

theorem processPost_no_upstream (net : String → String) (fs : FS)
    (p : DailyAnimePost) :
    ((processPost net fs p).2).all (fun e => !e.isUpstreamB) = true := by
  unfold processPost
  rcases p.first_comment with _ | c
  · exact allNU_cons _ _ (by rfl) (allNU_append
      (allNU_append (ensure_dir_no_upstream _ _) (ensure_dir_no_upstream _ _))
      (download_image_no_upstream _ _ _ _))
  · by_cases hs : (c == "") = true
    · simp only [hs, if_true]
      exact allNU_cons _ _ (by rfl) (allNU_append
        (allNU_append (ensure_dir_no_upstream _ _) (ensure_dir_no_upstream _ _))
        (download_image_no_upstream _ _ _ _))
    · simp only [hs, if_false, Bool.false_eq_true]
      exact allNU_cons _ _ (by rfl) (allNU_append (allNU_append
        (allNU_append (ensure_dir_no_upstream _ _) (ensure_dir_no_upstream _ _))
        (download_image_no_upstream _ _ _ _)) (by rfl))

theorem processPosts_no_upstream (net : String → String) :
    ∀ (l : List DailyAnimePost) (fs : FS),
    ((processPosts net fs l).2).all (fun e => !e.isUpstreamB) = true := by
  intro l
  induction l with
  | nil => intro fs; rfl
  | cons p rest ih =>
    intro fs
    simp only [processPosts]
    exact allNU_append (processPost_no_upstream _ _ _) (ih _)

/-! ### Claim C4 -/

/-- C4 (confirmed): when the cache file exists, the run is
`load_submissions_urls` followed by the per-record loop on exactly the
deserialized cache contents (aborting if the cache does not parse), and the
effect trace of the run contains no upstream-listing fetch: the Listing
Filter is never invoked, regardless of what the upstream holds. -/
theorem c4_cache_is_sole_source (net : String → String)
    (subs : List RedditSubmission) (fs : FS)
    (h : fs.existsPath submissions_urls_file = true) :
    main net subs fs =
      ((load_submissions_urls fs).map (fun daily =>
        ((processPosts net (ensure_dir fs data_dir).1 daily).1,
          (ensure_dir fs data_dir).2
            ++ (processPosts net (ensure_dir fs data_dir).1 daily).2))) ∧
    (∀ res, main net subs fs = some res →
      res.2.all (fun e => !e.isUpstreamB) = true) := by
  have hex : ((ensure_dir fs data_dir).1).existsPath submissions_urls_file = true :=
    ensure_dir_existsPath_mono fs data_dir submissions_urls_file h
  have hmain : main net subs fs =
      ((load_submissions_urls fs).map (fun daily =>
        ((processPosts net (ensure_dir fs data_dir).1 daily).1,
          (ensure_dir fs data_dir).2
            ++ (processPosts net (ensure_dir fs data_dir).1 daily).2))) := by
    unfold main
    rw [if_pos hex, load_submissions_urls_ensure]
    rcases load_submissions_urls fs with _ | daily <;> rfl
  refine ⟨hmain, ?_⟩
  intro res hres
  rw [hmain] at hres
  cases hl : load_submissions_urls fs with
  | none => rw [hl] at hres; exact absurd hres (by simp)
  | some daily =>
    rw [hl] at hres
    rw [Option.map_some'] at hres
    injection hres with hres
    subst hres
    exact allNU_append (ensure_dir_no_upstream _ _) (processPosts_no_upstream _ _ _)

/-- Witness for `c4_cache_is_sole_source`: a filesystem holding a cache file
with an empty record list makes the run load it and touch nothing upstream. -/
theorem c4_cache_is_sole_source_witness :
    main (fun _ => "B") []
      ⟨[], [(submissions_urls_file, .jsonData (encodeSubmissions []))]⟩ =
      some (⟨[data_dir], [(submissions_urls_file, .jsonData (encodeSubmissions []))]⟩,
        [.mkdirE data_dir]) := by
  have h := (c4_cache_is_sole_source (fun _ => "B") []
    ⟨[], [(submissions_urls_file, .jsonData (encodeSubmissions []))]⟩ (by decide)).1
  rw [h]
  rfl

/-! ### Claim C1 -/

/-- C1 concerns the cache-write step the specification describes.  The theorem
evaluates `main` on a fresh filesystem (no data directory, no cache file) with
an upstream listing containing one qualifying post: the run downloads and
archives the image (third component: one write to the image path), yet emits
zero writes to `data/submissions_urls.json` and finishes with the cache file
still absent — `main` never calls `save_submissions_urls`, so the filtered
list is never persisted and a second run would re-fetch from upstream. -/
theorem c1_cache_never_written :
    ((main (fun _ => "IMG")
      [⟨"today", "sub1", "/r/a/1", "http://a.b/c.jpg", 0, .ok []⟩]
      ⟨[], []⟩).map (fun res =>
      (res.2.countP (Effect.isWriteToB submissions_urls_file),
       (res.1.lookupFile submissions_urls_file).isNone,
       res.2.countP (Effect.isWriteToB "data/01_January/01/sub1.jpg")))) =
      some (0, true, 1) := by
  decide

end AnimeToday

namespace AnimeToday

/-! ### Claim C9 -/

/-- C9 is refuted as stated: a cached record whose `media_url` extension is
`txt` (possible only for externally supplied cache entries, since the Listing
Filter admits only image extensions) makes the Image Fetcher itself create
`{id}.txt` even though `first_comment` is absent.  Here the cache holds one
record with `media_url = "http://e/a.txt"` and `first_comment = none`, and the
run ends with `data/01_January/01/x.txt` holding the downloaded bytes. -/
theorem c9_counterexample :
    ((main (fun _ => "IMG") []
      ⟨["data"], [(submissions_urls_file, .jsonData (encodeSubmissions
        [⟨"t", "x", "p", "http://e/a.txt", 0, none⟩]))]⟩).map (fun res =>
      (res.1.readRaw "data/01_January/01/x.txt",
       res.2.countP (Effect.isWriteToB "data/01_January/01/x.txt")))) =
      some (some "IMG", 1) := by
  decide

/-- An image destination differs from the comment file whenever the media
URL's extension is not `txt`. -/
theorem image_txt_path_ne (r : DailyAnimePost) (dir : String)
    (hext : url_extension r.media_url ≠ "txt") :
    image_filename_of r dir ≠ dir ++ "/" ++ (r.id ++ ".txt") := by
  intro h
  apply hext
  have hd := congrArg String.data h
  simp only [image_filename_of, String.data_append, List.append_assoc] at hd
  have h1 := List.append_cancel_left (List.append_cancel_left (List.append_cancel_left hd))
  apply String.ext
  have h4 : (url_extension r.media_url).data = ['t', 'x', 't'] := by
    simpa using h1
  rw [h4]

theorem ensure_dir_countP_write (fs : FS) (p q : String) :
    ((ensure_dir fs p).2).countP (Effect.isWriteToB q) = 0 := by
  unfold ensure_dir; split <;> rfl

theorem download_countP_write_ne (net : String → String) (s : DailyAnimePost)
    (dir : String) (fs : FS) (q : String)
    (h : image_filename_of s dir ≠ q) :
    ((download_image net s dir fs).2).countP (Effect.isWriteToB q) = 0 := by
  have hb : (image_filename_of s dir == q) = false := by
    rw [beq_eq_false_iff_ne]
    exact h
  by_cases hex : fs.existsPath (image_filename_of s dir) = true <;>
    simp [download_image, hex, Effect.isWriteToB, List.countP_cons, hb]

/-- C9 (amended): when a record carries a non-empty `first_comment`, the
per-record loop writes it verbatim to `{directory}/{id}.txt` with no
existence check — after the step the file holds exactly the comment,
whatever was there before, and the trace ends with that write.  When
`first_comment` is absent or empty, the comment-persistence step writes
nothing, and no write to `{id}.txt` occurs at all provided the record's
media-URL extension is not itself `txt` (as the Image Fetcher would then
target the same name; this can only happen via externally crafted cache
entries, since the Listing Filter admits only image extensions). -/
theorem c9_comment_persistence (net : String → String) (fs : FS)
    (r : DailyAnimePost) :
    (∀ c, r.first_comment = some c → c ≠ "" →
      (processPost net fs r).1.lookupFile (txt_path_of r) = some (.raw c) ∧
      ∃ pre, (processPost net fs r).2 = pre ++ [.fsWrite (txt_path_of r) (.raw c)]) ∧
    ((r.first_comment = none ∨ r.first_comment = some "") →
      url_extension r.media_url ≠ "txt" →
      ((processPost net fs r).2).countP (Effect.isWriteToB (txt_path_of r)) = 0) := by
  constructor
  · intro c hfc hne
    have hb : (c == "") = false := by
      rw [beq_eq_false_iff_ne]
      exact hne
    unfold processPost
    rw [hfc]
    simp only [hb, Bool.false_eq_true, if_false]
    constructor
    · simp [FS.writeFile, FS.lookupFile, lookupA]
    · exact ⟨Effect.logMsg ("Processing " ++ r.title ++ " - " ++ r.permalink) ::
        ((ensure_dir fs (month_dir_of r)).2 ++
          (ensure_dir (ensure_dir fs (month_dir_of r)).1 (day_dir_of r)).2 ++
          (download_image net r (day_dir_of r)
            (ensure_dir (ensure_dir fs (month_dir_of r)).1 (day_dir_of r)).1).2),
        rfl⟩
  · intro hfc hext
    have hne2 : image_filename_of r (day_dir_of r) ≠ txt_path_of r :=
      image_txt_path_ne r (day_dir_of r) hext
    have hdl : ∀ fs2 : FS,
        ((download_image net r (day_dir_of r) fs2).2).countP
          (Effect.isWriteToB (txt_path_of r)) = 0 :=
      fun fs2 => download_countP_write_ne net r (day_dir_of r) fs2 (txt_path_of r) hne2
    rcases hfc with hfc | hfc <;>
      · unfold processPost
        rw [hfc]
        simp [List.countP_cons, List.countP_append, ensure_dir_countP_write, hdl,
          Effect.isWriteToB]

/-- Witness for `c9_comment_persistence`: a record with a non-empty comment
gets its comment file, and a record without one gets no comment write. -/
theorem c9_comment_persistence_witness :
    (processPost (fun _ => "B") ⟨[], []⟩
      ⟨"t", "x", "p", "http://a.b/c.jpg", 0, some "\x7bk\x7d"⟩).1.lookupFile
        (txt_path_of ⟨"t", "x", "p", "http://a.b/c.jpg", 0, some "\x7bk\x7d"⟩) =
      some (.raw "\x7bk\x7d") ∧
    ((processPost (fun _ => "B") ⟨[], []⟩
      ⟨"t", "y", "q", "http://a.b/c.jpg", 0, none⟩).2).countP
        (Effect.isWriteToB (txt_path_of ⟨"t", "y", "q", "http://a.b/c.jpg", 0, none⟩))
      = 0 := by
  constructor
  · exact ((c9_comment_persistence (fun _ => "B") ⟨[], []⟩
      ⟨"t", "x", "p", "http://a.b/c.jpg", 0, some "\x7bk\x7d"⟩).1 _ rfl (by decide)).1
  · exact (c9_comment_persistence (fun _ => "B") ⟨[], []⟩
      ⟨"t", "y", "q", "http://a.b/c.jpg", 0, none⟩).2 (Or.inl rfl) (by decide)

end AnimeToday

namespace AnimeToday

/-! ### Claim C10 -/

theorem monthChildrenAreDirs_cons_file (n : String) (rest : List FTree) :
    monthChildrenAreDirs (.file n :: rest) = monthChildrenAreDirs rest := by
  simp [monthChildrenAreDirs]

theorem monthChildrenAreDirs_cons_dir (n : String) (gch : List FTree)
    (rest : List FTree) :
    monthChildrenAreDirs (.dir n gch :: rest) =
      (gch.all FTree.isDirB && monthChildrenAreDirs rest) := by
  simp [monthChildrenAreDirs]

theorem auditMonths_cons_file (n : String) (rest : List FTree) :
    auditMonths (.file n :: rest) = auditMonths rest := by
  cases h : auditMonths rest <;> simp [auditMonths, auditMonth, h]

theorem auditMonths_cons_dir (n : String) (gch : List FTree)
    (rest : List FTree) :
    auditMonths (.dir n gch :: rest) =
      (match auditDays (data_dir ++ "/" ++ n) gch with
       | .error msg => .error msg
       | .ok r =>
         match auditMonths rest with
         | .error msg => .error msg
         | .ok rs => .ok (r ++ rs)) := rfl

theorem auditDays_all_dirs (md : String) (ch : List FTree)
    (h : ch.all FTree.isDirB = true) :
    auditDays md ch = .ok (dayEmpties md ch) := by
  induction ch with
  | nil => rfl
  | cons e rest ih =>
    rcases e with n | ⟨n, gch⟩
    · simp [List.all_cons, FTree.isDirB] at h
    · have hrest : rest.all FTree.isDirB = true := by
        rw [List.all_cons, Bool.and_eq_true] at h
        exact h.2
      unfold auditDays auditDay
      rw [ih hrest]
      rcases gch with _ | ⟨g, grest⟩ <;> rfl

theorem auditDays_has_file (md : String) (ch : List FTree)
    (h : ch.all FTree.isDirB = false) :
    ∃ msg, auditDays md ch = .error msg := by
  induction ch with
  | nil => simp at h
  | cons e rest ih =>
    rcases e with n | ⟨n, gch⟩
    · exact ⟨md ++ "/" ++ n, rfl⟩
    · have hrest : rest.all FTree.isDirB = false := by
        rw [List.all_cons] at h
        rwa [show FTree.isDirB (.dir n gch) = true from rfl, Bool.true_and] at h
      obtain ⟨msg, hmsg⟩ := ih hrest
      refine ⟨msg, ?_⟩
      unfold auditDays auditDay
      rw [hmsg]

/-- C10 (confirmed): the Audit Sweep is total exactly when no regular file
sits directly inside a month directory (the is-a-directory check happens only
at the month level, and `os.listdir` on a file raises), and in that case it
reports exactly the day-level entries whose directory listing is empty;
whenever some month directory does contain a regular file, the sweep aborts
with the raised error instead of completing. -/
theorem c10_audit_sweep (entries : List FTree) :
    (monthChildrenAreDirs entries = true ∧
      perform_audit entries = .ok (emptyDayDirs entries)) ∨
    (monthChildrenAreDirs entries = false ∧
      ∃ msg, perform_audit entries = .error msg) := by
  unfold perform_audit
  induction entries with
  | nil => exact Or.inl ⟨rfl, rfl⟩
  | cons e rest ih =>
    rcases e with n | ⟨n, gch⟩
    · rcases ih with ⟨h1, h2⟩ | ⟨h1, msg, h2⟩
      · exact Or.inl ⟨by rw [monthChildrenAreDirs_cons_file]; exact h1,
          by rw [auditMonths_cons_file, h2]; rfl⟩
      · exact Or.inr ⟨by rw [monthChildrenAreDirs_cons_file]; exact h1,
          msg, by rw [auditMonths_cons_file]; exact h2⟩
    · by_cases hg : gch.all FTree.isDirB = true
      · rcases ih with ⟨h1, h2⟩ | ⟨h1, msg, h2⟩
        · refine Or.inl ⟨?_, ?_⟩
          · rw [monthChildrenAreDirs_cons_dir, hg, h1]
            rfl
          · rw [auditMonths_cons_dir, auditDays_all_dirs _ _ hg, h2]
            rfl
        · refine Or.inr ⟨?_, msg, ?_⟩
          · rw [monthChildrenAreDirs_cons_dir, h1]
            simp
          · rw [auditMonths_cons_dir, auditDays_all_dirs _ _ hg, h2]
      · have hg2 : gch.all FTree.isDirB = false := by
          simpa using hg
        obtain ⟨msg, hmsg⟩ := auditDays_has_file (data_dir ++ "/" ++ n) gch hg2
        refine Or.inr ⟨?_, msg, ?_⟩
        · rw [monthChildrenAreDirs_cons_dir, hg2]
          rfl
        · rw [auditMonths_cons_dir, hmsg]

end AnimeToday
